import Mathlib

/-!
Shallow embedding of the `net-traffic` repository core:
the packet data model (`src/packet.rs`) and the TCP session
reconstruction pass (`src/sessions.rs`), with theorems checking the
specification's claims against these definitions.

Machine integers (`u8`, `u16`, `u32`, `usize`) are modelled as `Nat`;
`DateTime<Utc>` timestamps as `Int`; `Vec<T>` as `List T`; the
`HashMap` of the reconstruction pass as an association list in
insertion order (output iteration order is unspecified in the source,
so any deterministic order is a faithful refinement).
-/

/-- TCP flag set, from `TCPFlags` in `src/packet.rs`. -/
structure TCPFlags where
  fin : Bool
  syn : Bool
  rst : Bool
  psh : Bool
  ack : Bool
  urg : Bool
  ece : Bool
  cwr : Bool
deriving DecidableEq

/-- TCP option, from `TCPOption` in `src/packet.rs`. -/
structure TCPOption where
  kind : Nat
  length : Nat
  data : List Nat
deriving DecidableEq

/-- TCP segment, from `TCPSegment` in `src/packet.rs`. -/
structure TCPSegment where
  source_port : Nat
  destination_port : Nat
  sequence_number : Nat
  acknowledgment_number : Nat
  data_offset : Nat
  flags : TCPFlags
  window_size : Nat
  checksum : Nat
  urgent_pointer : Nat
  options : List TCPOption
deriving DecidableEq

/-- IPv4 flag bits, from `IPv4Flags` in `src/packet.rs`. -/
structure IPv4Flags where
  reserved : Bool
  dont_fragment : Bool
  more_fragments : Bool
deriving DecidableEq

/-- IPv4 header, from `IPv4Packet` in `src/packet.rs`. -/
structure IPv4Packet where
  version : Nat
  ihl : Nat
  dscp : Nat
  ecn : Nat
  total_length : Nat
  identification : Nat
  flags : IPv4Flags
  fragment_offset : Nat
  ttl : Nat
  protocol : Nat
  header_checksum : Nat
  source_ip : List Nat
  destination_ip : List Nat
  options : List Nat
deriving DecidableEq

/-- Ethernet frame, from `EthernetFrame` in `src/packet.rs`. -/
structure EthernetFrame where
  source_mac : List Nat
  destination_mac : List Nat
  ethertype : Nat
  frame_check_sequence : Nat
deriving DecidableEq

/-- Application protocol tag, from `ApplicationProtocol` in `src/packet.rs`. -/
inductive ApplicationProtocol where
  | HTTP
  | HTTPS
  | FTP
  | SSH
  | SMTP
  | DNS
  | Custom (label : String)
deriving DecidableEq

/-- Application layer data, from `ApplicationData` in `src/packet.rs`. -/
structure ApplicationData where
  protocol : ApplicationProtocol
  payload : List Nat
deriving DecidableEq

/-- One decoded packet, from `NetworkPacket` in `src/packet.rs`. -/
structure NetworkPacket where
  timestamp : Int
  ethernet_layer : EthernetFrame
  ip_layer : IPv4Packet
  tcp_layer : TCPSegment
  application_layer : ApplicationData
deriving DecidableEq

/-- `NetworkPacket::total_size` from `src/packet.rs`: 14 (Ethernet header
without FCS) + 20 + IPv4 options length + 20 + sum of declared TCP option
lengths + payload length. -/
def NetworkPacket.total_size (p : NetworkPacket) : Nat :=
  14 +
  (20 + p.ip_layer.options.length) +
  (20 + (p.tcp_layer.options.map TCPOption.length).sum) +
  p.application_layer.payload.length

/-- `NetworkPacket::is_handshake` from `src/packet.rs`: SYN or FIN set. -/
def NetworkPacket.is_handshake (p : NetworkPacket) : Bool :=
  p.tcp_layer.flags.syn || p.tcp_layer.flags.fin

/-- `NetworkPacket::get_protocol_string` from `src/packet.rs`. -/
def NetworkPacket.get_protocol_string (p : NetworkPacket) : String :=
  match p.application_layer.protocol with
  | .HTTP => "HTTP"
  | .HTTPS => "HTTPS"
  | .FTP => "FTP"
  | .SSH => "SSH"
  | .SMTP => "SMTP"
  | .DNS => "DNS"
  | .Custom label => label

/-- The 4-tuple key of the reconstruction map in `find_tcp_sessions`
(`src/sessions.rs`): (port, port, ip, ip). -/
abbrev FlowKey := Nat × Nat × List Nat × List Nat

/-- The value stored per flow key in `find_tcp_sessions`:
the tuple `(DateTime<Utc>, Option<DateTime<Utc>>, Vec<NetworkPacket>)`. -/
structure SessionData where
  start_timestamp : Int
  end_timestamp : Option Int
  packets : List NetworkPacket
deriving DecidableEq

/-- The `HashMap` of `find_tcp_sessions`, as an association list in
insertion order. -/
abbrev SessionMap := List (FlowKey × SessionData)

/-- `HashMap::get` on the session map: first entry with the given key. -/
def lookupS (s : SessionMap) (k : FlowKey) : Option SessionData :=
  match s with
  | [] => none
  | kv :: rest => if kv.1 = k then some kv.2 else lookupS rest k

/-- In-place update of the entry with the given key (as `get_mut` /
`entry` mutation on the `HashMap`). -/
def modifyS (s : SessionMap) (k : FlowKey) (f : SessionData → SessionData) :
    SessionMap :=
  s.map fun kv => if kv.1 = k then (kv.1, f kv.2) else kv

/-- Forward key of a packet, computed in the SYN branch of
`find_tcp_sessions` (`src/sessions.rs` lines 25-30). -/
def forwardKey (p : NetworkPacket) : FlowKey :=
  (p.tcp_layer.source_port, p.tcp_layer.destination_port,
   p.ip_layer.source_ip, p.ip_layer.destination_ip)

/-- Reverse key of a packet, computed in the FIN branch of
`find_tcp_sessions` (`src/sessions.rs` lines 40-45). -/
def reverseKey (p : NetworkPacket) : FlowKey :=
  (p.tcp_layer.destination_port, p.tcp_layer.source_port,
   p.ip_layer.destination_ip, p.ip_layer.source_ip)

/-- SYN branch of the per-packet loop of `find_tcp_sessions`:
`sessions.entry(key).or_insert((ts, None, vec![])).2.push(packet)`. -/
def synStep (s : SessionMap) (p : NetworkPacket) : SessionMap :=
  if p.tcp_layer.flags.syn then
    match lookupS s (forwardKey p) with
    | some _ =>
        modifyS s (forwardKey p) fun d => { d with packets := d.packets ++ [p] }
    | none => s ++ [(forwardKey p, ⟨p.timestamp, none, [p]⟩)]
  else s

/-- FIN branch of the per-packet loop of `find_tcp_sessions`: on a hit of
the reverse key, `session.1 = Some(ts); session.2.push(packet)`. -/
def finStep (s : SessionMap) (p : NetworkPacket) : SessionMap :=
  if p.tcp_layer.flags.fin then
    match lookupS s (reverseKey p) with
    | some _ =>
        modifyS s (reverseKey p) fun d =>
          { d with end_timestamp := some p.timestamp,
                   packets := d.packets ++ [p] }
    | none => s
  else s

/-- Tracking loop of `find_tcp_sessions`: push the packet into every
existing entry (`for session in sessions.values_mut()`). -/
def trackStep (s : SessionMap) (p : NetworkPacket) : SessionMap :=
  s.map fun kv => (kv.1, { kv.2 with packets := kv.2.packets ++ [p] })

/-- One iteration of the packet loop of `find_tcp_sessions`. -/
def processPacket (s : SessionMap) (p : NetworkPacket) : SessionMap :=
  trackStep (finStep (synStep s p) p) p

/-- Output record, from `TCPSession` in `src/sessions.rs`. -/
structure TCPSession where
  source_port : Nat
  destination_port : Nat
  source_ip : List Nat
  destination_ip : List Nat
  start_timestamp : Int
  end_timestamp : Option Int
  packets : List NetworkPacket
deriving DecidableEq

/-- Conversion of one map entry to a `TCPSession`, as in the final
`into_iter().map(...)` of `find_tcp_sessions`. -/
def toSession (kv : FlowKey × SessionData) : TCPSession :=
  { source_port := kv.1.1
    destination_port := kv.1.2.1
    source_ip := kv.1.2.2.1
    destination_ip := kv.1.2.2.2
    start_timestamp := kv.2.start_timestamp
    end_timestamp := kv.2.end_timestamp
    packets := kv.2.packets }

/-- `find_tcp_sessions` from `src/sessions.rs`. -/
def find_tcp_sessions (packets : List NetworkPacket) : List TCPSession :=
  (packets.foldl processPacket []).map toSession

/-- A packet with the given flags, ports, addresses and timestamp, and
default values elsewhere (as produced by the parser for fields the
claims do not vary). -/
def mkPacket (f : TCPFlags) (sp dp : Nat) (sip dip : List Nat)
    (ts : Int) : NetworkPacket :=
  { timestamp := ts
    ethernet_layer :=
      { source_mac := [0, 0, 0, 0, 0, 0]
        destination_mac := [0, 0, 0, 0, 0, 0]
        ethertype := 2048
        frame_check_sequence := 0 }
    ip_layer :=
      { version := 4, ihl := 5, dscp := 0, ecn := 0, total_length := 0
        identification := 0
        flags := ⟨false, false, false⟩
        fragment_offset := 0, ttl := 64, protocol := 6
        header_checksum := 0
        source_ip := sip, destination_ip := dip, options := [] }
    tcp_layer :=
      { source_port := sp, destination_port := dp
        sequence_number := 0, acknowledgment_number := 0
        data_offset := 5, flags := f
        window_size := 0, checksum := 0, urgent_pointer := 0
        options := [] }
    application_layer := { protocol := .HTTP, payload := [] } }

def synFlags : TCPFlags := ⟨false, true, false, false, false, false, false, false⟩
def finFlags : TCPFlags := ⟨true, false, false, false, false, false, false, false⟩
def ackFlags : TCPFlags := ⟨false, false, false, false, true, false, false, false⟩
def rstFlags : TCPFlags := ⟨false, false, true, false, false, false, false, false⟩

/-- Address A of scenario A. -/
def addrA : List Nat := [10, 0, 0, 1]
/-- Address B of scenario A. -/
def addrB : List Nat := [10, 0, 0, 2]

/-- Scenario A, packet P1: SYN from A:1000 to B:80, generic addresses
and timestamp. -/
def scenA_P1g (A B : List Nat) (t : Int) : NetworkPacket :=
  mkPacket synFlags 1000 80 A B t

/-- Scenario A, packet P2: ACK from B:80 to A:1000, generic addresses
and timestamp. -/
def scenA_P2g (A B : List Nat) (t : Int) : NetworkPacket :=
  mkPacket ackFlags 80 1000 B A t

/-- Scenario A, packet P3: FIN from B:80 to A:1000, generic addresses
and timestamp. -/
def scenA_P3g (A B : List Nat) (t : Int) : NetworkPacket :=
  mkPacket finFlags 80 1000 B A t

/-- Scenario A, packet P1 at concrete addresses and time 1. -/
def scenA_P1 : NetworkPacket := scenA_P1g addrA addrB 1
/-- Scenario A, packet P2 at concrete addresses and time 2. -/
def scenA_P2 : NetworkPacket := scenA_P2g addrA addrB 2
/-- Scenario A, packet P3 at concrete addresses and time 3. -/
def scenA_P3 : NetworkPacket := scenA_P3g addrA addrB 3

/-- A first FIN from B:80 to A:1000 at time 2, matching `scenA_P1`. -/
def twoFin_f1 : NetworkPacket := mkPacket finFlags 80 1000 addrB addrA 2
/-- A second FIN from B:80 to A:1000 at time 3, matching `scenA_P1`. -/
def twoFin_f2 : NetworkPacket := mkPacket finFlags 80 1000 addrB addrA 3

/-- Scenario B: SYN of flow X, A:1000 to B:80 at time 1. -/
def scenB_sX : NetworkPacket := mkPacket synFlags 1000 80 addrA addrB 1
/-- Scenario B: SYN of flow Y, A:2000 to B:81 at time 2. -/
def scenB_sY : NetworkPacket := mkPacket synFlags 2000 81 addrA addrB 2
/-- Scenario B: an ACK belonging only to flow Y, at time 3. -/
def scenB_pY : NetworkPacket := mkPacket ackFlags 2000 81 addrA addrB 3
/-- Scenario B: the map state after the two SYNs. -/
def scenB_state : SessionMap := processPacket (processPacket [] scenB_sX) scenB_sY

/-- Scenario C: a FIN with no matching prior SYN. -/
def scenC_fin : NetworkPacket := mkPacket finFlags 80 1000 addrB addrA 5

/-- The packet with only the ACK flag set used by the handshake claim. -/
def ackOnlyPacket : NetworkPacket := mkPacket ackFlags 1 2 addrA addrB 0
/-- The packet with only the RST flag set used by the handshake claim. -/
def rstOnlyPacket : NetworkPacket := mkPacket rstFlags 1 2 addrA addrB 0

/-- Replace only the application payload of a packet. -/
def setPayload (p : NetworkPacket) (l : List Nat) : NetworkPacket :=
  { p with application_layer := { p.application_layer with payload := l } }

/-- The keys of the session map, in order. -/
def keysOf (s : SessionMap) : List FlowKey := s.map Prod.fst

theorem lookupS_modifyS (s : SessionMap) (k : FlowKey)
    (f : SessionData → SessionData) :
    lookupS (modifyS s k f) k = (lookupS s k).map f := by
  induction s with
  | nil => rfl
  | cons kv rest ih =>
      by_cases h : kv.1 = k <;> simp [modifyS, lookupS, h] <;>
        simpa [modifyS] using ih

theorem isSome_lookupS_modifyS (s : SessionMap) (k q : FlowKey)
    (f : SessionData → SessionData) :
    (lookupS (modifyS s k f) q).isSome = (lookupS s q).isSome := by
  induction s with
  | nil => rfl
  | cons kv rest ih =>
      by_cases h : kv.1 = k
      · by_cases hq : kv.1 = q
        · have hkq : k = q := h.symm.trans hq
          simp [modifyS, lookupS, h, hq, hkq]
        · have hkq : ¬k = q := fun e => hq (h.trans e)
          simpa [modifyS, lookupS, h, hq, hkq] using ih
      · by_cases hq : kv.1 = q
        · have hqk : ¬q = k := fun e => h (hq.trans e)
          simp [modifyS, lookupS, h, hq, hqk]
        · simpa [modifyS, lookupS, h, hq] using ih

theorem lookupS_append_of_some (s t : SessionMap) (k : FlowKey)
    (d : SessionData) (h : lookupS s k = some d) :
    lookupS (s ++ t) k = some d := by
  induction s with
  | nil => simp [lookupS] at h
  | cons kv rest ih =>
      by_cases hk : kv.1 = k <;> simp_all [lookupS]

theorem lookupS_append_of_none (s t : SessionMap) (k : FlowKey)
    (h : lookupS s k = none) :
    lookupS (s ++ t) k = lookupS t k := by
  induction s with
  | nil => rfl
  | cons kv rest ih =>
      by_cases hk : kv.1 = k <;> simp_all [lookupS]

theorem not_mem_keysOf_of_lookupS_none (s : SessionMap) (k : FlowKey)
    (h : lookupS s k = none) : k ∉ keysOf s := by
  induction s with
  | nil => simp [keysOf]
  | cons kv rest ih =>
      by_cases hk : kv.1 = k
      · simp [lookupS, hk] at h
      · have h2 : lookupS rest k = none := by simpa [lookupS, hk] using h
        simp only [keysOf, List.map_cons, List.mem_cons]
        push_neg
        exact ⟨fun e => hk e.symm, ih h2⟩

theorem lookupS_trackStep (s : SessionMap) (p : NetworkPacket) (k : FlowKey) :
    lookupS (trackStep s p) k =
      (lookupS s k).map fun d => { d with packets := d.packets ++ [p] } := by
  induction s with
  | nil => rfl
  | cons kv rest ih =>
      by_cases hk : kv.1 = k <;> simp [trackStep, lookupS, hk] <;>
        simpa [trackStep] using ih

theorem isSome_lookupS_synStep (s : SessionMap) (p : NetworkPacket)
    (k : FlowKey) (h : (lookupS s k).isSome) :
    (lookupS (synStep s p) k).isSome := by
  unfold synStep
  split
  · cases hl : lookupS s (forwardKey p) with
    | some d => simp [hl, isSome_lookupS_modifyS, h]
    | none =>
        simp only [hl]
        obtain ⟨d, hd⟩ := Option.isSome_iff_exists.mp h
        rw [lookupS_append_of_some s _ k d hd]
        rfl
  · exact h

theorem isSome_lookupS_finStep (s : SessionMap) (p : NetworkPacket)
    (k : FlowKey) (h : (lookupS s k).isSome) :
    (lookupS (finStep s p) k).isSome := by
  unfold finStep
  split
  · cases hl : lookupS s (reverseKey p) with
    | some d => simp [hl, isSome_lookupS_modifyS, h]
    | none => simpa [hl] using h
  · exact h

theorem packets_ne_nil_trackStep (s : SessionMap) (p : NetworkPacket) :
    ∀ kv ∈ trackStep s p, kv.2.packets ≠ [] := by
  intro kv hkv
  simp only [trackStep, List.mem_map] at hkv
  obtain ⟨x, _, hx⟩ := hkv
  rw [← hx]
  simp

theorem packets_ne_nil_foldl (ps : List NetworkPacket) (s : SessionMap)
    (h : ∀ kv ∈ s, kv.2.packets ≠ []) :
    ∀ kv ∈ ps.foldl processPacket s, kv.2.packets ≠ [] := by
  induction ps generalizing s with
  | nil => exact h
  | cons p rest ih =>
      intro kv hkv
      exact ih (processPacket s p)
        (packets_ne_nil_trackStep (finStep (synStep s p) p) p) kv hkv

theorem keysOf_modifyS (s : SessionMap) (k : FlowKey)
    (f : SessionData → SessionData) :
    keysOf (modifyS s k f) = keysOf s := by
  induction s with
  | nil => rfl
  | cons kv rest ih =>
      show ((if kv.1 = k then (kv.1, f kv.2) else kv).1 ::
          keysOf (modifyS rest k f)) = kv.1 :: keysOf rest
      rw [ih]
      by_cases h : kv.1 = k
      · rw [if_pos h]
      · rw [if_neg h]

theorem keysOf_trackStep (s : SessionMap) (p : NetworkPacket) :
    keysOf (trackStep s p) = keysOf s := by
  induction s with
  | nil => rfl
  | cons kv rest ih => simpa [trackStep, keysOf] using ih

theorem nodup_keysOf_synStep (s : SessionMap) (p : NetworkPacket)
    (h : (keysOf s).Nodup) : (keysOf (synStep s p)).Nodup := by
  unfold synStep
  split
  · cases hl : lookupS s (forwardKey p) with
    | some d => simpa [hl, keysOf_modifyS] using h
    | none =>
        have hnm := not_mem_keysOf_of_lookupS_none s (forwardKey p) hl
        simp only [hl, keysOf, List.map_append, List.map_cons, List.map_nil]
        rw [List.nodup_append]
        exact ⟨h, List.nodup_singleton _,
          fun a ha hmem => hnm (List.mem_singleton.mp hmem ▸ ha)⟩
  · exact h

theorem nodup_keysOf_finStep (s : SessionMap) (p : NetworkPacket)
    (h : (keysOf s).Nodup) : (keysOf (finStep s p)).Nodup := by
  unfold finStep
  split
  · cases hl : lookupS s (reverseKey p) with
    | some d => simpa [hl, keysOf_modifyS] using h
    | none => simpa [hl] using h
  · exact h

theorem nodup_keysOf_foldl (ps : List NetworkPacket) (s : SessionMap)
    (h : (keysOf s).Nodup) :
    (keysOf (ps.foldl processPacket s)).Nodup := by
  induction ps generalizing s with
  | nil => exact h
  | cons p rest ih =>
      refine ih (processPacket s p) ?_
      show (keysOf (trackStep (finStep (synStep s p) p) p)).Nodup
      rw [keysOf_trackStep]
      exact nodup_keysOf_finStep _ p (nodup_keysOf_synStep s p h)

/-- C1: on scenario A (P1 SYN A:1000→B:80, P2 ACK B:80→A:1000,
P3 FIN B:80→A:1000) the claim asserts the single session's packet list is
exactly [P1, P2, P3] with no duplicates; the code pushes P1 and P3 twice
(once in the SYN/FIN branch and once in the tracking loop), so the claim
as stated is false at the concrete scenario-A input. -/
theorem claim_C1_counterexample :
    ¬ (find_tcp_sessions [scenA_P1, scenA_P2, scenA_P3] =
        [{ source_port := 1000, destination_port := 80, source_ip := addrA,
           destination_ip := addrB, start_timestamp := 1,
           end_timestamp := some 3,
           packets := [scenA_P1, scenA_P2, scenA_P3] }]) := by
  decide

/-- C1 (amended): scenario A yields exactly one session with key
(1000, 80, A, B), start = P1's timestamp, end = P3's timestamp, and
packet list [P1, P1, P2, P3, P3]: P1 and P3 each appear twice, once from
the SYN/FIN branch and once from the tracking loop. -/
theorem claim_C1 (A B : List Nat) (t1 t2 t3 : Int) :
    find_tcp_sessions [scenA_P1g A B t1, scenA_P2g A B t2, scenA_P3g A B t3] =
      [{ source_port := 1000, destination_port := 80, source_ip := A,
         destination_ip := B, start_timestamp := t1,
         end_timestamp := some t3,
         packets := [scenA_P1g A B t1, scenA_P1g A B t1, scenA_P2g A B t2,
                     scenA_P3g A B t3, scenA_P3g A B t3] }] := by
  simp [find_tcp_sessions, processPacket, synStep, finStep, trackStep,
        lookupS, modifyS, forwardKey, reverseKey, scenA_P1g, scenA_P2g,
        scenA_P3g, mkPacket, synFlags, ackFlags, finFlags, toSession]

/-- C2: the claim asserts a second matching FIN leaves an already-set
end time untouched, so the emitted end_timestamp would be the first
matching FIN's timestamp; on the input [SYN, FIN at time 2, FIN at
time 3] the code emits end_timestamp 3, not 2. -/
theorem claim_C2_counterexample :
    ¬ ((find_tcp_sessions [scenA_P1, twoFin_f1, twoFin_f2]).map
        TCPSession.end_timestamp = [some twoFin_f1.timestamp]) := by
  decide

/-- C2 (amended): the FIN branch overwrites the end time unconditionally
on every reverse-key hit, so a later matching FIN replaces an already-set
end time and the emitted end_timestamp is the timestamp of the last
matching FIN; on [SYN, FIN at 2, FIN at 3] the emitted end time is 3. -/
theorem claim_C2 :
    (∀ (s : SessionMap) (p : NetworkPacket) (d : SessionData),
      p.tcp_layer.flags.fin = true →
      lookupS s (reverseKey p) = some d →
      lookupS (finStep s p) (reverseKey p) =
        some { d with end_timestamp := some p.timestamp,
                      packets := d.packets ++ [p] }) ∧
    (find_tcp_sessions [scenA_P1, twoFin_f1, twoFin_f2]).map
        TCPSession.end_timestamp = [some twoFin_f2.timestamp] := by
  constructor
  · intro s p d hf hl
    simp only [finStep, hf, if_true, hl]
    rw [lookupS_modifyS, hl]
    rfl
  · decide

/-- Witness for C2 (amended): a map whose entry already has end time 2 is
overwritten to end time 3 by a second matching FIN. -/
theorem claim_C2_witness :
    lookupS
        (finStep [((1000, 80, addrA, addrB), ⟨1, some 2, []⟩)] twoFin_f2)
        (reverseKey twoFin_f2) =
      some ⟨1, some 3, [twoFin_f2]⟩ :=
  claim_C2.1 [((1000, 80, addrA, addrB), ⟨1, some 2, []⟩)] twoFin_f2
    ⟨1, some 2, []⟩ (by decide) (by decide)

/-- C3: every packet is appended to the packet list of every session
entry present in the map when the packet is processed, regardless of
whether the packet's flow key matches that session. -/
theorem claim_C3 (s : SessionMap) (p : NetworkPacket) (k : FlowKey)
    (d d2 : SessionData)
    (hbefore : lookupS s k = some d)
    (hafter : lookupS (processPacket s p) k = some d2) :
    p ∈ d2.packets := by
  have h1 : (lookupS (synStep s p) k).isSome :=
    isSome_lookupS_synStep s p k (by simp [hbefore])
  have h2 : (lookupS (finStep (synStep s p) p) k).isSome :=
    isSome_lookupS_finStep _ p k h1
  obtain ⟨d3, hd3⟩ := Option.isSome_iff_exists.mp h2
  have hfin : lookupS (processPacket s p) k =
      some { d3 with packets := d3.packets ++ [p] } := by
    show lookupS (trackStep (finStep (synStep s p) p) p) k = _
    rw [lookupS_trackStep, hd3]
    rfl
  rw [hfin] at hafter
  injection hafter with h
  rw [← h]
  simp

/-- Witness for C3, scenario B: after the SYNs of flows X and Y, the ACK
belonging only to flow Y is appended to flow X's session entry. -/
theorem claim_C3_witness :
    scenB_pY ∈ (SessionData.mk 1 none
        [scenB_sX, scenB_sX, scenB_sY, scenB_pY]).packets :=
  claim_C3 scenB_state scenB_pY (forwardKey scenB_sX)
    ⟨1, none, [scenB_sX, scenB_sX, scenB_sY]⟩
    ⟨1, none, [scenB_sX, scenB_sX, scenB_sY, scenB_pY]⟩
    (by decide) (by decide)

/-- C4: for a SYN packet, an absent forward key gets a fresh entry with
start time = the packet's timestamp, end time absent and the packet
appended; a present forward key keeps its start (and end) time and only
has the packet appended. -/
theorem claim_C4 (s : SessionMap) (p : NetworkPacket)
    (hsyn : p.tcp_layer.flags.syn = true) :
    (lookupS s (forwardKey p) = none →
      lookupS (synStep s p) (forwardKey p) =
        some ⟨p.timestamp, none, [p]⟩) ∧
    (∀ d : SessionData, lookupS s (forwardKey p) = some d →
      lookupS (synStep s p) (forwardKey p) =
        some { d with packets := d.packets ++ [p] }) := by
  constructor
  · intro hl
    simp only [synStep, hsyn, if_true, hl]
    rw [lookupS_append_of_none s _ _ hl]
    simp [lookupS]
  · intro d hl
    simp only [synStep, hsyn, if_true, hl]
    rw [lookupS_modifyS, hl]
    rfl

/-- Witness for C4: a first SYN creates the entry ⟨1, none, [P1]⟩; a
repeated identical SYN appends again without resetting the start time. -/
theorem claim_C4_witness :
    lookupS (synStep [] scenA_P1) (forwardKey scenA_P1) =
        some ⟨1, none, [scenA_P1]⟩ ∧
      lookupS (synStep (synStep [] scenA_P1) scenA_P1) (forwardKey scenA_P1) =
        some ⟨1, none, [scenA_P1, scenA_P1]⟩ :=
  ⟨(claim_C4 [] scenA_P1 (by decide)).1 (by decide),
   (claim_C4 (synStep [] scenA_P1) scenA_P1 (by decide)).2
     ⟨1, none, [scenA_P1]⟩ (by decide)⟩

/-- C5: the reverse key of a FIN packet whose endpoints are the swap of a
SYN packet's endpoints equals the SYN packet's forward key. -/
theorem claim_C5 (synP finP : NetworkPacket)
    (h1 : finP.tcp_layer.source_port = synP.tcp_layer.destination_port)
    (h2 : finP.tcp_layer.destination_port = synP.tcp_layer.source_port)
    (h3 : finP.ip_layer.source_ip = synP.ip_layer.destination_ip)
    (h4 : finP.ip_layer.destination_ip = synP.ip_layer.source_ip) :
    reverseKey finP = forwardKey synP := by
  simp [reverseKey, forwardKey, h1, h2, h3, h4]

/-- Witness for C5: scenario A's FIN round-trips to scenario A's SYN key. -/
theorem claim_C5_witness : reverseKey scenA_P3 = forwardKey scenA_P1 :=
  claim_C5 scenA_P1 scenA_P3 rfl rfl rfl rfl

/-- C6: a FIN whose reverse key has no entry leaves the map unchanged,
and an input consisting only of such an unmatched FIN produces no
session at all (the pass is total and cannot fail). -/
theorem claim_C6 :
    (∀ (s : SessionMap) (p : NetworkPacket),
      p.tcp_layer.flags.fin = true →
      lookupS s (reverseKey p) = none →
      finStep s p = s) ∧
    (∀ p : NetworkPacket,
      p.tcp_layer.flags.syn = false →
      find_tcp_sessions [p] = []) := by
  constructor
  · intro s p hf hl
    simp [finStep, hf, hl]
  · intro p hs
    cases hf : p.tcp_layer.flags.fin <;>
      simp [find_tcp_sessions, processPacket, synStep, finStep, trackStep,
            lookupS, hs, hf]

/-- Witness for C6: the unmatched FIN of scenario C mutates no session
entry and alone produces an empty session list. -/
theorem claim_C6_witness :
    finStep [((42, 43, addrA, addrB), ⟨0, none, []⟩)] scenC_fin =
        [((42, 43, addrA, addrB), ⟨0, none, []⟩)] ∧
      find_tcp_sessions [scenC_fin] = [] :=
  ⟨claim_C6.1 [((42, 43, addrA, addrB), ⟨0, none, []⟩)] scenC_fin
      (by decide) (by decide),
   claim_C6.2 scenC_fin (by decide)⟩

/-- C7: `total_size` equals 14 (link header without the check sequence)
plus 20 plus the IPv4 options length, plus 20 plus the sum of the
declared TCP option lengths, plus the payload length; it is
non-negative; and two packets differing only in payload length differ
in `total_size` by exactly that payload-length delta. -/
theorem claim_C7 :
    (∀ p : NetworkPacket,
      p.total_size =
        14 + (20 + p.ip_layer.options.length) +
        (20 + (p.tcp_layer.options.map TCPOption.length).sum) +
        p.application_layer.payload.length) ∧
    (∀ p : NetworkPacket, 0 ≤ p.total_size) ∧
    (∀ (p : NetworkPacket) (l1 l2 : List Nat),
      (setPayload p l2).total_size + l1.length =
        (setPayload p l1).total_size + l2.length) := by
  refine ⟨fun p => rfl, fun p => Nat.zero_le _, fun p l1 l2 => ?_⟩
  simp only [NetworkPacket.total_size, setPayload]
  ring

/-- C8: `is_handshake` is true iff the SYN or the FIN flag is set, and
in particular is false for an ACK-only packet and for an RST-only
packet. -/
theorem claim_C8 :
    (∀ p : NetworkPacket,
      p.is_handshake = true ↔
        (p.tcp_layer.flags.syn = true ∨ p.tcp_layer.flags.fin = true)) ∧
    ackOnlyPacket.is_handshake = false ∧
    rstOnlyPacket.is_handshake = false := by
  refine ⟨fun p => ?_, by decide, by decide⟩
  simp [NetworkPacket.is_handshake, Bool.or_eq_true]

/-- C9: every session returned by `find_tcp_sessions` has a non-empty
packet list: entries are only created by a SYN, which is itself
appended. -/
theorem claim_C9 (ps : List NetworkPacket) (sess : TCPSession)
    (h : sess ∈ find_tcp_sessions ps) : sess.packets ≠ [] := by
  simp only [find_tcp_sessions, List.mem_map] at h
  obtain ⟨kv, hkv, hs⟩ := h
  have hne := packets_ne_nil_foldl ps [] (by simp) kv hkv
  rw [← hs]
  simpa [toSession] using hne

/-- Witness for C9: the scenario-A session has a non-empty packet list. -/
theorem claim_C9_witness :
    (TCPSession.mk 1000 80 addrA addrB 1 (some 3)
        [scenA_P1, scenA_P1, scenA_P2, scenA_P3, scenA_P3]).packets ≠ [] :=
  claim_C9 [scenA_P1, scenA_P2, scenA_P3]
    (TCPSession.mk 1000 80 addrA addrB 1 (some 3)
      [scenA_P1, scenA_P1, scenA_P2, scenA_P3, scenA_P3]) (by decide)

/-- C10: no two sessions in the output of `find_tcp_sessions` carry the
same flow key (source port, destination port, source ip,
destination ip). -/
theorem claim_C10 (ps : List NetworkPacket) :
    ((find_tcp_sessions ps).map fun t =>
        (t.source_port, t.destination_port, t.source_ip,
         t.destination_ip)).Nodup := by
  have h := nodup_keysOf_foldl ps [] (by simp [keysOf])
  have heq : ((find_tcp_sessions ps).map fun t =>
      (t.source_port, t.destination_port, t.source_ip,
       t.destination_ip)) = keysOf (ps.foldl processPacket []) := by
    simp only [find_tcp_sessions, keysOf, List.map_map]
    rfl
  rw [heq]
  exact h
